import Mathlib

/-!
Verification of the tournament lifecycle and admin-mutation model of the
Aspire chess academy backend.

The development shallowly embeds the tournament data model
(`models/Tournament.js`), the read-time status recomputation
(`tournamentSchema.methods.updateStatus`), and the tournament route handlers
(`routes/tournaments.js`, shipped inside `config/cloudinary.js` in this
source drop): public listing, admin listing, create, full update,
participant patch, completion patch, and active toggle.

Modelling conventions:
- A JavaScript `Date` is a `Timestamp`: a calendar day index (`day : Int`)
  plus a time-of-day offset within that day (`tod : Nat`).  Epoch-order
  comparison of two `Date`s is the lexicographic order on `(day, tod)`;
  `toDateString()` equality is equality of `day`.
- The document store is a list of tournaments addressed by `id`; Mongoose
  `save` re-validates the schema constraints (`schemaValid`).
- The Cloudinary blob store is a list of public ids.  The URL of an
  uploaded image and the handle recovered from it by `extractPublicId` are
  identified (the URL-format round trip is abstracted away; none of the
  verified properties depend on URL syntax), so `posterImage` stores the
  handle of the referenced blob.
- External failure of an upload or of a record write is an explicit
  boolean oracle parameter (`uploadOk`, `saveOk`, `oldDeleteOk`).
- JavaScript `String.prototype.trim` is `jsTrim`, defined over the
  character list; `x || y` on an optional number is the truthiness
  fallback (`0` and absence both fall through to `y`).
- The handlers' `catch` blocks read the variable `cloudinaryResult`,
  which the source declares with `let` *inside* the `try` block; in the
  `catch` scope that name is unresolved, so reaching the `catch` raises a
  `ReferenceError` instead of running the cleanup.  This is modelled by
  the explicit `referenceErrorCrash` outcome.
-/

/-- A point in time: calendar day index and time-of-day offset. -/
structure Timestamp where
  day : Int
  tod : Nat
  deriving DecidableEq, Repr

/-- JavaScript `a < b` on Dates (epoch order), boolean form. -/
def Timestamp.ltb (a b : Timestamp) : Bool :=
  decide (a.day < b.day) || (decide (a.day = b.day) && decide (a.tod < b.tod))

/-- JavaScript `a <= b` on Dates (epoch order), boolean form. -/
def Timestamp.leb (a b : Timestamp) : Bool :=
  decide (a.day < b.day) || (decide (a.day = b.day) && decide (a.tod ≤ b.tod))

/-- Epoch order as a proposition. -/
def Timestamp.lt (a b : Timestamp) : Prop :=
  a.day < b.day ∨ (a.day = b.day ∧ a.tod < b.tod)

instance (a b : Timestamp) : Decidable (Timestamp.lt a b) := by
  unfold Timestamp.lt
  exact inferInstance

/-- `toDateString()` equality: same calendar day. -/
def sameCalendarDay (a b : Timestamp) : Bool :=
  decide (a.day = b.day)

/-- The `status` enum of the tournament schema. -/
inductive Status where
  | upcoming
  | ongoing
  | completed
  | cancelled
  deriving DecidableEq, Repr

/-- String form of a status, as stored in the document. -/
def statusToString : Status → String
  | Status.upcoming => "upcoming"
  | Status.ongoing => "ongoing"
  | Status.completed => "completed"
  | Status.cancelled => "cancelled"

/-- A tournament document (`models/Tournament.js`). -/
structure Tournament where
  id : Nat
  name : String
  date : Timestamp
  time : String
  location : String
  address : String
  entryFee : String
  prizePool : String
  maxParticipants : Int
  currentParticipants : Int
  format : String
  timeControl : String
  category : String
  registrationLink : String
  poster : String
  posterImage : Option String
  description : String
  listUntil : Timestamp
  status : Status
  isActive : Bool
  winner : Option String
  finalParticipants : Option Int
  deriving DecidableEq, Repr

/-- `tournamentSchema.methods.updateStatus`: recompute `status` from the
clock and the scheduled date.  The comparison chain is exactly the
source's: `now > date` gives completed, else same calendar day gives
ongoing, else upcoming.  There is no guard on the current status: the
recomputation is unconditional.  (The accompanying `save()` write-through
is modelled at the call sites that use the store.) -/
def updateStatus (t : Tournament) (now : Timestamp) : Tournament :=
  if Timestamp.ltb t.date now then { t with status := Status.completed }
  else if sameCalendarDay now t.date then { t with status := Status.ongoing }
  else { t with status := Status.upcoming }

/-- The document store: a list of tournaments addressed by `id`. -/
abbrev Store := List Tournament

/-- `Tournament.findById`. -/
def findById (store : Store) (id : Nat) : Option Tournament :=
  store.find? (fun t => t.id == id)

/-- `document.save()` as a store update: replace the document with the
matching id. -/
def saveById (store : Store) (t : Tournament) : Store :=
  store.map (fun u => if u.id == t.id then t else u)

/-- JavaScript whitespace recognised by `trim`. -/
def isSpaceChar (c : Char) : Bool :=
  c == ' ' || c == '\t' || c == '\n' || c == '\r'

/-- `String.prototype.trim`: strip whitespace from both ends. -/
def jsTrim (s : String) : String :=
  ⟨((s.data.dropWhile isSpaceChar).reverse.dropWhile isSpaceChar).reverse⟩

/-- The `category` enum of the schema and of the express validator. -/
def categoryEnum : List String :=
  ["Open Tournament", "Youth (Under 18)", "Online Blitz", "Rapid", "Classical", "Blitz"]

/-- Character-list prefix test (kernel-reducible `startsWith`). -/
def strStarts (s p : String) : Bool :=
  p.data.isPrefixOf s.data

/-- The `registrationLink` schema pattern `^https?:\/\/.+`. -/
def validUrl (s : String) : Bool :=
  (strStarts s "http://" && decide (7 < s.length)) ||
  (strStarts s "https://" && decide (8 < s.length))

/-- The Mongoose schema constraints re-checked on every `save`:
required non-empty trimmed strings with their length caps, the numeric
minimums, the category enum, and the registration-link pattern.  `winner`
and `finalParticipants` carry no constraint. -/
def schemaValidProp (t : Tournament) : Prop :=
  t.name ≠ "" ∧ t.name.length ≤ 150 ∧
  t.time ≠ "" ∧
  t.location ≠ "" ∧ t.location.length ≤ 200 ∧
  t.address ≠ "" ∧ t.address.length ≤ 300 ∧
  t.entryFee ≠ "" ∧
  t.prizePool ≠ "" ∧
  1 ≤ t.maxParticipants ∧
  0 ≤ t.currentParticipants ∧
  t.format ≠ "" ∧ t.format.length ≤ 100 ∧
  t.timeControl ≠ "" ∧ t.timeControl.length ≤ 100 ∧
  t.category ∈ categoryEnum ∧
  validUrl t.registrationLink = true ∧
  t.description ≠ "" ∧ t.description.length ≤ 1000

instance (t : Tournament) : Decidable (schemaValidProp t) := by
  unfold schemaValidProp
  exact inferInstance

/-- Boolean form of the schema constraints. -/
def schemaValid (t : Tournament) : Bool :=
  decide (schemaValidProp t)

/-- Error kinds surfaced by the handlers. -/
inductive ApiError where
  | validation (msg : String)
  | notFound
  | server
  deriving DecidableEq, Repr

/-- Ascending insertion by scheduled date (model of the store's
`sort .. date: 1 ..`). -/
def insertByDateAsc (t : Tournament) : List Tournament → List Tournament
  | [] => [t]
  | u :: rest =>
    if Timestamp.leb t.date u.date then t :: u :: rest
    else u :: insertByDateAsc t rest

/-- Ascending sort by scheduled date. -/
def sortByDateAsc : List Tournament → List Tournament
  | [] => []
  | t :: rest => insertByDateAsc t (sortByDateAsc rest)

/-- Descending insertion by scheduled date (model of `sort .. date: -1 ..`). -/
def insertByDateDesc (t : Tournament) : List Tournament → List Tournament
  | [] => [t]
  | u :: rest =>
    if Timestamp.leb u.date t.date then t :: u :: rest
    else u :: insertByDateDesc t rest

/-- Descending sort by scheduled date. -/
def sortByDateDesc : List Tournament → List Tournament
  | [] => []
  | t :: rest => insertByDateDesc t (sortByDateDesc rest)

/-- The ascending-date ordering used for sortedness statements. -/
def dateLe (a b : Tournament) : Prop :=
  Timestamp.leb a.date b.date = true

/-- The filter of `GET /api/tournaments`: active, still listed, and the
stored status is upcoming or ongoing. -/
def listPublicFilter (now : Timestamp) (t : Tournament) : Bool :=
  t.isActive && Timestamp.leb now t.listUntil &&
    (t.status == Status.upcoming || t.status == Status.ongoing)

/-- `GET /api/tournaments`: find active, still-listed, upcoming-or-ongoing
tournaments sorted by ascending date, then recompute each status before
returning.  The recomputation happens *after* the status filter, on the
fetched documents. -/
def listPublic (store : Store) (now : Timestamp) : List Tournament :=
  (sortByDateAsc (store.filter (listPublicFilter now))).map
    (fun t => updateStatus t now)

/-- `PATCH /:id/participants`: reject a negative count before loading,
reject a count above `maxParticipants` after loading, otherwise set and
save. -/
def patchParticipants (store : Store) (id : Nat) (currentParticipants : Int) :
    Except ApiError Tournament × Store :=
  if currentParticipants < 0 then
    (Except.error (ApiError.validation "Current participants must be a non-negative number"),
     store)
  else
    match findById store id with
    | none => (Except.error ApiError.notFound, store)
    | some t =>
      if t.maxParticipants < currentParticipants then
        (Except.error (ApiError.validation "Current participants cannot exceed maximum participants"),
         store)
      else
        let t' := { t with currentParticipants := currentParticipants }
        if schemaValid t' then (Except.ok t', saveById store t')
        else (Except.error ApiError.server, store)

/-- The JavaScript `finalParticipants || currentParticipants` truthiness
fallback: a supplied `0`, like an absent value, falls through to the
current count. -/
def fallbackParticipants (finalParticipants : Option Int) (cur : Int) : Int :=
  match finalParticipants with
  | some n => if n == 0 then cur else n
  | none => cur

/-- `PATCH /:id/complete`: reject a blank winner, then set
`status = completed`, the trimmed winner, and
`finalParticipants = finalParticipants || currentParticipants` (the
truthiness fallback `fallbackParticipants`), and save. -/
def completeTournament (store : Store) (id : Nat) (winner : String)
    (finalParticipants : Option Int) :
    Except ApiError Tournament × Store :=
  if jsTrim winner == "" then
    (Except.error (ApiError.validation "Winner name is required"), store)
  else
    match findById store id with
    | none => (Except.error ApiError.notFound, store)
    | some t =>
      let fp : Int := fallbackParticipants finalParticipants t.currentParticipants
      let t' := { t with status := Status.completed,
                         winner := some (jsTrim winner),
                         finalParticipants := some fp }
      if schemaValid t' then (Except.ok t', saveById store t')
      else (Except.error ApiError.server, store)

/-- `PATCH /:id/toggle-status`: flip `isActive` and save. -/
def toggleStatus (store : Store) (id : Nat) :
    Except ApiError Tournament × Store :=
  match findById store id with
  | none => (Except.error ApiError.notFound, store)
  | some t =>
    let t' := { t with isActive := !t.isActive }
    if schemaValid t' then (Except.ok t', saveById store t')
    else (Except.error ApiError.server, store)

/-- The request body accepted by create and full update. -/
structure TournamentInput where
  name : String
  date : Timestamp
  time : String
  location : String
  address : String
  entryFee : String
  prizePool : String
  maxParticipants : Int
  format : String
  timeControl : String
  category : String
  registrationLink : String
  description : String
  listUntil : Timestamp
  currentParticipants : Option Int
  deriving DecidableEq, Repr

/-- The express validators' `.trim()` sanitisation, applied in place to
the body before validation and persistence. -/
def sanitizeInput (d : TournamentInput) : TournamentInput :=
  { d with
    name := jsTrim d.name
    time := jsTrim d.time
    location := jsTrim d.location
    address := jsTrim d.address
    entryFee := jsTrim d.entryFee
    prizePool := jsTrim d.prizePool
    format := jsTrim d.format
    timeControl := jsTrim d.timeControl
    registrationLink := jsTrim d.registrationLink
    description := jsTrim d.description }

/-- The `tournamentValidation` rule list of the router, applied to the
sanitised body.  Note: there is no relation required between
`currentParticipants` and `maxParticipants`; the former must only be a
non-negative integer when present. -/
def tournamentValidation (d : TournamentInput) : Bool :=
  decide (1 ≤ d.name.length ∧ d.name.length ≤ 150) &&
  !(d.time == "") &&
  decide (1 ≤ d.location.length ∧ d.location.length ≤ 200) &&
  decide (1 ≤ d.address.length ∧ d.address.length ≤ 300) &&
  !(d.entryFee == "") &&
  !(d.prizePool == "") &&
  decide (1 ≤ d.maxParticipants ∧ d.maxParticipants ≤ 1000) &&
  decide (1 ≤ d.format.length ∧ d.format.length ≤ 100) &&
  decide (1 ≤ d.timeControl.length ∧ d.timeControl.length ≤ 100) &&
  categoryEnum.contains d.category &&
  !(d.registrationLink == "") &&
  decide (1 ≤ d.description.length ∧ d.description.length ≤ 1000) &&
  (match d.currentParticipants with
   | some n => decide (0 ≤ n)
   | none => true)

/-- `new Tournament(tournamentData)`: build the document with the schema
defaults (`poster` glyph, `status = upcoming`, `isActive = true`,
`currentParticipants = 0` when absent, null winner fields). -/
def buildTournament (newId : Nat) (d : TournamentInput)
    (posterImage : Option String) : Tournament :=
  { id := newId
    name := d.name
    date := d.date
    time := d.time
    location := d.location
    address := d.address
    entryFee := d.entryFee
    prizePool := d.prizePool
    maxParticipants := d.maxParticipants
    currentParticipants := d.currentParticipants.getD 0
    format := d.format
    timeControl := d.timeControl
    category := d.category
    registrationLink := d.registrationLink
    poster := "🏆"
    posterImage := posterImage
    description := d.description
    listUntil := d.listUntil
    status := Status.upcoming
    isActive := true
    winner := none
    finalParticipants := none }

/-- Outcomes of `POST /api/tournaments`. -/
inductive CreateResult where
  | created (t : Tournament)
  | validationFailed
  | uploadFailed
  | referenceErrorCrash
  deriving DecidableEq, Repr

/-- `POST /api/tournaments`: validate, optionally upload the poster, then
save.  A save failure lands in the `catch` block, whose first statement
reads `cloudinaryResult` — a `let` binding scoped to the `try` block — so
the handler raises `ReferenceError` there: the uploaded blob is *not*
deleted and no error response is produced. -/
def postTournament (store : Store) (blobs : List String) (newId : Nat)
    (d : TournamentInput) (image : Option String) (uploadOk saveOk : Bool) :
    CreateResult × Store × List String :=
  let d' := sanitizeInput d
  if !(tournamentValidation d') then (CreateResult.validationFailed, store, blobs)
  else
    match image with
    | some pid =>
      if uploadOk then
        let blobs' := blobs ++ [pid]
        let t := buildTournament newId d' (some pid)
        if saveOk && schemaValid t then (CreateResult.created t, store ++ [t], blobs')
        else (CreateResult.referenceErrorCrash, store, blobs')
      else (CreateResult.uploadFailed, store, blobs)
    | none =>
      let t := buildTournament newId d' none
      if saveOk && schemaValid t then (CreateResult.created t, store ++ [t], blobs)
      else (CreateResult.referenceErrorCrash, store, blobs)

/-- `Object.assign(tournament, updateData)`: overwrite the body fields,
keep `status`, `winner`, `finalParticipants`, `isActive`, `poster`, and —
when no new image was uploaded — the old `posterImage`. -/
def applyUpdate (t : Tournament) (d : TournamentInput)
    (newPoster : Option String) : Tournament :=
  { t with
    name := d.name
    date := d.date
    time := d.time
    location := d.location
    address := d.address
    entryFee := d.entryFee
    prizePool := d.prizePool
    maxParticipants := d.maxParticipants
    currentParticipants :=
      match d.currentParticipants with
      | some n => n
      | none => t.currentParticipants
    format := d.format
    timeControl := d.timeControl
    category := d.category
    registrationLink := d.registrationLink
    description := d.description
    listUntil := d.listUntil
    posterImage :=
      match newPoster with
      | some p => some p
      | none => t.posterImage }

/-- Outcomes of `PUT /api/tournaments/:id`. -/
inductive UpdateResult where
  | updated (t : Tournament)
  | validationFailed
  | notFound
  | uploadFailed
  | referenceErrorCrash
  deriving DecidableEq, Repr

/-- `PUT /api/tournaments/:id`: validate, load, optionally upload the new
poster (remembering the old reference), save, and only after a successful
save delete the old blob (best-effort: `oldDeleteOk = false` leaves it,
without failing the request).  A save failure lands in the `catch` block,
which — as in create — raises `ReferenceError` on the try-scoped
`cloudinaryResult`, so the newly uploaded blob is *not* deleted and no
error response is produced; the old reference is untouched either way. -/
def putTournament (store : Store) (blobs : List String) (id : Nat)
    (d : TournamentInput) (newImage : Option String)
    (uploadOk saveOk oldDeleteOk : Bool) :
    UpdateResult × Store × List String :=
  let d' := sanitizeInput d
  if !(tournamentValidation d') then (UpdateResult.validationFailed, store, blobs)
  else
    match findById store id with
    | none => (UpdateResult.notFound, store, blobs)
    | some t =>
      match newImage with
      | some pid =>
        if uploadOk then
          let blobs1 := blobs ++ [pid]
          let oldRef := t.posterImage
          let t' := applyUpdate t d' (some pid)
          if saveOk && schemaValid t' then
            let store' := saveById store t'
            match oldRef with
            | some oldPid =>
              if oldDeleteOk then (UpdateResult.updated t', store', blobs1.erase oldPid)
              else (UpdateResult.updated t', store', blobs1)
            | none => (UpdateResult.updated t', store', blobs1)
          else (UpdateResult.referenceErrorCrash, store, blobs1)
        else (UpdateResult.uploadFailed, store, blobs)
      | none =>
        let t' := applyUpdate t d' none
        if saveOk && schemaValid t' then
          (UpdateResult.updated t', saveById store t', blobs)
        else (UpdateResult.referenceErrorCrash, store, blobs)

/-- Admin list request options (`GET /api/tournaments/admin`). -/
structure AdminParams where
  page : Nat
  limit : Nat
  search : String
  status : String
  category : String
  deriving DecidableEq, Repr

/-- Lower-case a string character-wise (the `i` regex option). -/
def lowerStr (s : String) : String :=
  ⟨s.data.map Char.toLower⟩

/-- Case-insensitive substring match: the `$regex .. $options: 'i'`
filter applied to a field. -/
def containsCI (haystack needle : String) : Bool :=
  let h := (lowerStr haystack).data
  let n := (lowerStr needle).data
  (List.range (h.length + 1)).any (fun i => n.isPrefixOf (h.drop i))

/-- The admin query built by the route: an OR of case-insensitive
substring matches when `search` is non-empty, the `isActive` flag for
status `active`/`inactive`, the `status` field for any other non-`all`
status, and the exact category for a non-`all` category. -/
def adminMatch (p : AdminParams) (t : Tournament) : Bool :=
  (p.search == "" ||
    (containsCI t.name p.search || containsCI t.location p.search ||
      containsCI t.category p.search)) &&
  (p.status == "all" ||
    (if p.status == "active" then t.isActive
     else if p.status == "inactive" then !t.isActive
     else statusToString t.status == p.status)) &&
  (p.category == "all" || t.category == p.category)

/-- The admin list response: one page of matches plus pagination data. -/
structure AdminListResponse where
  data : List Tournament
  total : Nat
  totalPages : Nat
  currentPage : Nat
  deriving DecidableEq, Repr

/-- `GET /api/tournaments/admin`: filter, sort by descending date, skip
`(page - 1) * limit`, take `limit`, and report
`totalPages = Math.ceil(total / limit)`. -/
def getAdminTournaments (store : Store) (p : AdminParams) : AdminListResponse :=
  let matched := store.filter (adminMatch p)
  let sorted := sortByDateDesc matched
  { data := (sorted.drop ((p.page - 1) * p.limit)).take p.limit
    total := matched.length
    totalPages := ⌈(matched.length : ℚ) / (p.limit : ℚ)⌉₊
    currentPage := p.page }

/-- Search-match written as the spec states it: a case-insensitive
substring match across name, location, and category joined by OR (with
no special case for the empty search, which trivially matches). -/
def searchMatchesSpec (p : AdminParams) (t : Tournament) : Prop :=
  containsCI t.name p.search = true ∨ containsCI t.location p.search = true ∨
    containsCI t.category p.search = true

/-- Status-match written as the spec states it: `active`/`inactive`
target the `isActive` flag, any other non-`all` value targets the
`status` field directly. -/
def statusMatchesSpec (p : AdminParams) (t : Tournament) : Prop :=
  if p.status = "all" then True
  else if p.status = "active" then t.isActive = true
  else if p.status = "inactive" then t.isActive = false
  else statusToString t.status = p.status

/-- Category-match written as the spec states it. -/
def categoryMatchesSpec (p : AdminParams) (t : Tournament) : Prop :=
  p.category = "all" ∨ t.category = p.category

/-- A concrete well-formed tournament used to instantiate theorems. -/
def sampleBase : Tournament :=
  { id := 1
    name := "City Open"
    date := ⟨0, 0⟩
    time := "10:00 AM"
    location := "Main Hall"
    address := "1 Academy Road"
    entryFee := "500"
    prizePool := "10000"
    maxParticipants := 32
    currentParticipants := 10
    format := "Swiss"
    timeControl := "90+30"
    category := "Classical"
    registrationLink := "http://example.com/register"
    poster := "🏆"
    posterImage := none
    description := "Annual open tournament."
    listUntil := ⟨30, 0⟩
    status := Status.upcoming
    isActive := true
    winner := none
    finalParticipants := none }

/-- A stored tournament whose status is stale: still `upcoming` in the
store although its date has passed. -/
def staleTournament : Tournament :=
  { sampleBase with date := ⟨0, 0⟩, listUntil := ⟨10, 0⟩, status := Status.upcoming }

/-- A concrete valid request body used to instantiate theorems. -/
def sampleInput : TournamentInput :=
  { name := "City Open"
    date := ⟨0, 0⟩
    time := "10:00 AM"
    location := "Main Hall"
    address := "1 Academy Road"
    entryFee := "500"
    prizePool := "10000"
    maxParticipants := 32
    format := "Swiss"
    timeControl := "90+30"
    category := "Classical"
    registrationLink := "http://example.com/register"
    description := "Annual open tournament."
    listUntil := ⟨30, 0⟩
    currentParticipants := some 10 }

/-- A valid request body whose participant count exceeds its maximum. -/
def overInput : TournamentInput :=
  { sampleInput with currentParticipants := some 50 }

/-- A stored tournament that references an uploaded poster blob. -/
def sampleWithImage : Tournament :=
  { sampleBase with posterImage := some "old-1" }

lemma Timestamp.ltb_iff (a b : Timestamp) :
    Timestamp.ltb a b = true ↔ Timestamp.lt a b := by
  simp [Timestamp.ltb, Timestamp.lt]

lemma Timestamp.leb_trans {a b c : Timestamp}
    (h1 : Timestamp.leb a b = true) (h2 : Timestamp.leb b c = true) :
    Timestamp.leb a c = true := by
  simp only [Timestamp.leb, Bool.or_eq_true, Bool.and_eq_true,
    decide_eq_true_eq] at h1 h2 ⊢
  omega

lemma Timestamp.leb_total (a b : Timestamp) :
    Timestamp.leb a b = true ∨ Timestamp.leb b a = true := by
  simp only [Timestamp.leb, Bool.or_eq_true, Bool.and_eq_true,
    decide_eq_true_eq]
  omega

lemma updateStatus_eq (t : Tournament) (now : Timestamp) :
    updateStatus t now =
      { t with status :=
          if Timestamp.ltb t.date now then Status.completed
          else if sameCalendarDay now t.date then Status.ongoing
          else Status.upcoming } := by
  unfold updateStatus
  by_cases h1 : Timestamp.ltb t.date now <;>
    by_cases h2 : sameCalendarDay now t.date <;> simp [h1, h2]

lemma updateStatus_date (t : Tournament) (now : Timestamp) :
    (updateStatus t now).date = t.date := by
  rw [updateStatus_eq]

lemma updateStatus_isActive (t : Tournament) (now : Timestamp) :
    (updateStatus t now).isActive = t.isActive := by
  rw [updateStatus_eq]

lemma updateStatus_listUntil (t : Tournament) (now : Timestamp) :
    (updateStatus t now).listUntil = t.listUntil := by
  rw [updateStatus_eq]

lemma updateStatus_ne_cancelled (t : Tournament) (now : Timestamp) :
    (updateStatus t now).status ≠ Status.cancelled := by
  rw [updateStatus_eq]
  by_cases h1 : Timestamp.ltb t.date now <;>
    by_cases h2 : sameCalendarDay now t.date <;> simp [h1, h2]

/-- Claim C1: the spec requires `cancelled` to be terminal under automatic
recomputation.  The code's `updateStatus` recomputes unconditionally, with
no guard on `cancelled`: a cancelled tournament whose date has passed is
silently reclassified as `completed`.  This theorem evaluates the code at
such an input, exhibiting the divergence. -/
theorem c1_cancelled_not_sticky :
    (updateStatus { sampleBase with status := Status.cancelled } ⟨1, 0⟩).status
      = Status.completed := by
  decide

/-- Claim C4: for every non-cancelled tournament with scheduled date `D`,
recomputation at clock `now` yields `completed` when `now` is strictly
after `D`; `ongoing` when `now` is not after `D` but falls on `D`'s
calendar day; `upcoming` otherwise.  In particular a clock one calendar
day before `D` yields `upcoming`, the clock at exactly `D` yields
`ongoing`, and a clock one calendar day after `D` yields `completed`. -/
theorem c4_recompute_cases (t : Tournament) (hc : t.status ≠ Status.cancelled) :
    (∀ now : Timestamp, Timestamp.lt t.date now →
        (updateStatus t now).status = Status.completed) ∧
    (∀ now : Timestamp, ¬ Timestamp.lt t.date now → now.day = t.date.day →
        (updateStatus t now).status = Status.ongoing) ∧
    (∀ now : Timestamp, ¬ Timestamp.lt t.date now → now.day ≠ t.date.day →
        (updateStatus t now).status = Status.upcoming) ∧
    (∀ now : Timestamp, now.day = t.date.day - 1 →
        (updateStatus t now).status = Status.upcoming) ∧
    ((updateStatus t t.date).status = Status.ongoing) ∧
    (∀ now : Timestamp, now.day = t.date.day + 1 →
        (updateStatus t now).status = Status.completed) := by
  refine ⟨?_, ?_, ?_, ?_, ?_, ?_⟩
  · intro now h
    rw [updateStatus_eq]
    simp [Timestamp.ltb_iff, h]
  · intro now h hd
    rw [updateStatus_eq]
    simp only [Timestamp.ltb_iff]
    rw [if_neg h]
    simp [sameCalendarDay, hd]
  · intro now h hd
    rw [updateStatus_eq]
    simp only [Timestamp.ltb_iff]
    rw [if_neg h]
    simp [sameCalendarDay, hd]
  · intro now hd
    rw [updateStatus_eq]
    have h1 : ¬ Timestamp.lt t.date now := by
      simp only [Timestamp.lt]
      omega
    simp only [Timestamp.ltb_iff]
    rw [if_neg h1]
    have h2 : sameCalendarDay now t.date = false := by
      simp only [sameCalendarDay, decide_eq_false_iff_not]
      omega
    simp [h2]
  · rw [updateStatus_eq]
    have h1 : ¬ Timestamp.lt t.date t.date := by
      simp [Timestamp.lt]
    simp only [Timestamp.ltb_iff]
    rw [if_neg h1]
    simp [sameCalendarDay]
  · intro now hd
    rw [updateStatus_eq]
    have h1 : Timestamp.lt t.date now := by
      simp only [Timestamp.lt]
      omega
    simp [Timestamp.ltb_iff, h1]

/-- Witness for C4 at a concrete tournament and concrete clocks. -/
theorem c4_recompute_cases_witness :
    (updateStatus sampleBase sampleBase.date).status = Status.ongoing ∧
    (updateStatus sampleBase ⟨1, 0⟩).status = Status.completed ∧
    (updateStatus sampleBase ⟨-1, 0⟩).status = Status.upcoming :=
  ⟨(c4_recompute_cases sampleBase (by decide)).2.2.2.2.1,
   (c4_recompute_cases sampleBase (by decide)).2.2.2.2.2 ⟨1, 0⟩ (by decide),
   (c4_recompute_cases sampleBase (by decide)).2.2.2.1 ⟨-1, 0⟩ (by decide)⟩

/-- Claim C10: on non-cancelled tournaments, recomputation at a fixed
clock is idempotent, and its result is independent of the status held
before recomputation. -/
theorem c10_idempotent_history_free (t : Tournament) (now : Timestamp)
    (hc : t.status ≠ Status.cancelled) :
    updateStatus (updateStatus t now) now = updateStatus t now ∧
    (∀ s1 s2 : Status,
        (updateStatus { t with status := s1 } now).status
          = (updateStatus { t with status := s2 } now).status) := by
  constructor
  · rw [updateStatus_eq t now, updateStatus_eq]
  · intro s1 s2
    rw [updateStatus_eq, updateStatus_eq]

/-- Witness for C10 at a concrete tournament and clock. -/
theorem c10_idempotent_history_free_witness :
    updateStatus (updateStatus sampleBase ⟨1, 0⟩) ⟨1, 0⟩
      = updateStatus sampleBase ⟨1, 0⟩ ∧
    (updateStatus { sampleBase with status := Status.upcoming } ⟨1, 0⟩).status
      = (updateStatus { sampleBase with status := Status.ongoing } ⟨1, 0⟩).status :=
  ⟨(c10_idempotent_history_free sampleBase ⟨1, 0⟩ (by decide)).1,
   (c10_idempotent_history_free sampleBase ⟨1, 0⟩ (by decide)).2
     Status.upcoming Status.ongoing⟩

lemma mem_insertByDateAsc {u t : Tournament} {l : List Tournament} :
    u ∈ insertByDateAsc t l ↔ u = t ∨ u ∈ l := by
  induction l with
  | nil => simp [insertByDateAsc]
  | cons v rest ih =>
    rw [insertByDateAsc]
    by_cases hle : Timestamp.leb t.date v.date = true
    · rw [if_pos hle]
      simp
    · rw [if_neg hle]
      simp only [List.mem_cons, ih]
      tauto

lemma mem_sortByDateAsc {u : Tournament} {l : List Tournament} :
    u ∈ sortByDateAsc l ↔ u ∈ l := by
  induction l with
  | nil => simp [sortByDateAsc]
  | cons v rest ih =>
    rw [sortByDateAsc]
    simp [mem_insertByDateAsc, ih]

lemma pairwise_insertByDateAsc (t : Tournament) (l : List Tournament)
    (h : l.Pairwise dateLe) : (insertByDateAsc t l).Pairwise dateLe := by
  induction l with
  | nil => simp [insertByDateAsc, dateLe]
  | cons u rest ih =>
    rw [List.pairwise_cons] at h
    obtain ⟨hu, hrest⟩ := h
    rw [insertByDateAsc]
    by_cases hle : Timestamp.leb t.date u.date = true
    · rw [if_pos hle]
      rw [List.pairwise_cons]
      refine ⟨?_, List.pairwise_cons.mpr ⟨hu, hrest⟩⟩
      intro x hx
      rcases List.mem_cons.mp hx with rfl | hx
      · exact hle
      · exact Timestamp.leb_trans hle (hu x hx)
    · rw [if_neg hle]
      rw [List.pairwise_cons]
      refine ⟨?_, ih hrest⟩
      intro x hx
      rcases mem_insertByDateAsc.mp hx with rfl | hx
      · rcases Timestamp.leb_total x.date u.date with hc | hc
        · exact absurd hc hle
        · exact hc
      · exact hu x hx

lemma pairwise_sortByDateAsc (l : List Tournament) :
    (sortByDateAsc l).Pairwise dateLe := by
  induction l with
  | nil => simp [sortByDateAsc]
  | cons v rest ih => exact pairwise_insertByDateAsc v _ ih

/-- Claim C3 counterexample: a stored tournament whose status is stale
(`upcoming` in the store although its date has passed) passes the stored
status filter, is recomputed to `completed`, and is returned anyway: the
returned sequence does contain a tournament whose post-recomputation
status is `completed`. -/
theorem c3_counterexample :
    ¬ (∀ u ∈ listPublic [staleTournament] ⟨5, 0⟩,
        u.status ≠ Status.completed ∧ u.status ≠ Status.cancelled) := by
  decide

/-- Claim C3 amended: every tournament returned by `listPublic(now)` is
the recomputation of a stored tournament satisfying the publicly-listed
predicate evaluated on its *stored* (pre-recomputation) status; hence
every returned tournament is active, has `listUntil ≥ now`, and its
post-recomputation status is never `cancelled` (though it may be
`completed` when the stored status was stale); and the sequence is
ordered by ascending scheduled date. -/
theorem c3_list_public_amended (store : Store) (now : Timestamp) :
    (∀ u ∈ listPublic store now,
        ∃ t ∈ store, t.isActive = true ∧ Timestamp.leb now t.listUntil = true ∧
          (t.status = Status.upcoming ∨ t.status = Status.ongoing) ∧
          u = updateStatus t now) ∧
    (∀ u ∈ listPublic store now,
        u.isActive = true ∧ Timestamp.leb now u.listUntil = true ∧
          u.status ≠ Status.cancelled) ∧
    (listPublic store now).Pairwise dateLe := by
  refine ⟨?_, ?_, ?_⟩
  · intro u hu
    simp only [listPublic, List.mem_map] at hu
    obtain ⟨t, ht, rfl⟩ := hu
    have ht2 : t ∈ store.filter (listPublicFilter now) := mem_sortByDateAsc.mp ht
    rw [List.mem_filter] at ht2
    obtain ⟨hts, htf⟩ := ht2
    simp only [listPublicFilter, Bool.and_eq_true, Bool.or_eq_true,
      beq_iff_eq] at htf
    exact ⟨t, hts, htf.1.1, htf.1.2, htf.2, rfl⟩
  · intro u hu
    simp only [listPublic, List.mem_map] at hu
    obtain ⟨t, ht, rfl⟩ := hu
    have ht2 : t ∈ store.filter (listPublicFilter now) := mem_sortByDateAsc.mp ht
    rw [List.mem_filter] at ht2
    obtain ⟨hts, htf⟩ := ht2
    simp only [listPublicFilter, Bool.and_eq_true, Bool.or_eq_true,
      beq_iff_eq] at htf
    refine ⟨?_, ?_, updateStatus_ne_cancelled t now⟩
    · rw [updateStatus_isActive]
      exact htf.1.1
    · rw [updateStatus_listUntil]
      exact htf.1.2
  · simp only [listPublic]
    rw [List.pairwise_map]
    refine (pairwise_sortByDateAsc _).imp ?_
    intro a b hab
    simp only [dateLe, updateStatus_date]
    exact hab

/-- Witness for the amended C3 at a concrete store and clock. -/
theorem c3_list_public_amended_witness :
    (updateStatus staleTournament ⟨5, 0⟩).isActive = true ∧
    Timestamp.leb ⟨5, 0⟩ (updateStatus staleTournament ⟨5, 0⟩).listUntil = true ∧
    (updateStatus staleTournament ⟨5, 0⟩).status ≠ Status.cancelled :=
  (c3_list_public_amended [staleTournament] ⟨5, 0⟩).2.1
    (updateStatus staleTournament ⟨5, 0⟩) (by decide)

lemma schemaValid_set_current (t : Tournament) (n : Int)
    (h : schemaValid t = true) (hn : 0 ≤ n) :
    schemaValid { t with currentParticipants := n } = true := by
  simp only [schemaValid, decide_eq_true_eq] at h ⊢
  unfold schemaValidProp at h ⊢
  obtain ⟨h1, h2, h3, h4, h5, h6, h7, h8, h9, h10, h11, h12, h13, h14, h15,
    h16, h17, h18, h19⟩ := h
  exact ⟨h1, h2, h3, h4, h5, h6, h7, h8, h9, h10, hn, h12, h13, h14, h15,
    h16, h17, h18, h19⟩

lemma schemaValid_set_completion (t : Tournament) (w : String) (fp : Int) :
    schemaValid { t with status := Status.completed, winner := some w,
                         finalParticipants := some fp }
      = schemaValid t := rfl

lemma schemaValid_set_active (t : Tournament) (b : Bool) :
    schemaValid { t with isActive := b } = schemaValid t := rfl

/-- Claim C8: for an existing (schema-valid) tournament `t`,
`PATCH /:id/participants` with `newCount` rejects with a validation error
and leaves the store unchanged when `newCount < 0` or
`newCount > maxParticipants`, and otherwise — the boundary
`newCount = maxParticipants` included — stores exactly `t` with
`currentParticipants = newCount`. -/
theorem c8_patch_participants (store : Store) (id : Nat) (n : Int)
    (t : Tournament) (hf : findById store id = some t)
    (hvalid : schemaValid t = true) :
    ((n < 0 ∨ t.maxParticipants < n) →
      (∃ msg, (patchParticipants store id n).1
          = Except.error (ApiError.validation msg)) ∧
      (patchParticipants store id n).2 = store) ∧
    (0 ≤ n → n ≤ t.maxParticipants →
      (patchParticipants store id n).1
          = Except.ok { t with currentParticipants := n } ∧
      (patchParticipants store id n).2
          = saveById store { t with currentParticipants := n }) := by
  constructor
  · intro hbad
    by_cases hneg : n < 0
    · refine ⟨⟨"Current participants must be a non-negative number", ?_⟩, ?_⟩ <;>
        simp [patchParticipants, hneg]
    · have hmax : t.maxParticipants < n := by
        rcases hbad with hb | hb
        · exact absurd hb hneg
        · exact hb
      refine ⟨⟨"Current participants cannot exceed maximum participants", ?_⟩, ?_⟩ <;>
        simp [patchParticipants, hneg, hf, hmax]
  · intro h0 hle
    have hneg : ¬ n < 0 := by omega
    have hmax : ¬ t.maxParticipants < n := by omega
    have hv : schemaValid { t with currentParticipants := n } = true :=
      schemaValid_set_current t n hvalid h0
    constructor <;> simp [patchParticipants, hneg, hf, hmax, hv]

/-- Witness for C8: a concrete in-range patch and the boundary value. -/
theorem c8_patch_participants_witness :
    (patchParticipants [sampleBase] 1 32).1
        = Except.ok { sampleBase with currentParticipants := 32 } ∧
    (patchParticipants [sampleBase] 1 32).2
        = saveById [sampleBase] { sampleBase with currentParticipants := 32 } :=
  (c8_patch_participants [sampleBase] 1 32 sampleBase (by decide) (by decide)).2
    (by decide) (by decide)

/-- Claim C5 counterexample: `complete` with an explicitly supplied
`finalParticipants = 0` does *not* store `0`: the JavaScript `||`
fallback treats `0` as absent and stores `currentParticipants` (10 here)
instead, contradicting the claim that a supplied value is always
stored. -/
theorem c5_counterexample :
    (completeTournament [sampleBase] 1 "Alice" (some 0)).1.toOption.map
        Tournament.finalParticipants = some (some 10) ∧
    (completeTournament [sampleBase] 1 "Alice" (some 0)).1.toOption.map
        Tournament.finalParticipants ≠ some (some 0) := by
  decide

/-- Claim C5 amended: for an existing (schema-valid) tournament,
`complete` rejects a blank winner with a validation error leaving the
store unchanged; otherwise it stores `status = completed`,
`winner = trim(winner)`, and `finalParticipants` equal to the supplied
value when one is supplied *and non-zero*, else `currentParticipants`
(the code's `finalParticipants || currentParticipants` truthiness
fallback), and persists the record. -/
theorem c5_complete_amended (store : Store) (id : Nat) (w : String)
    (fp : Option Int) (t : Tournament)
    (hf : findById store id = some t) (hvalid : schemaValid t = true) :
    (jsTrim w = "" →
      (completeTournament store id w fp).1
          = Except.error (ApiError.validation "Winner name is required") ∧
      (completeTournament store id w fp).2 = store) ∧
    (jsTrim w ≠ "" →
      ∃ t', (completeTournament store id w fp).1 = Except.ok t' ∧
        (completeTournament store id w fp).2 = saveById store t' ∧
        t'.status = Status.completed ∧
        t'.winner = some (jsTrim w) ∧
        (∀ n : Int, fp = some n → n ≠ 0 → t'.finalParticipants = some n) ∧
        ((fp = none ∨ fp = some 0) →
          t'.finalParticipants = some t.currentParticipants)) := by
  constructor
  · intro hw
    have hbe : (jsTrim w == "") = true := by
      simpa using hw
    constructor <;> simp [completeTournament, hbe]
  · intro hw
    have hbe : (jsTrim w == "") = false := by
      simpa using hw
    refine ⟨{ t with status := Status.completed,
                     winner := some (jsTrim w),
                     finalParticipants :=
                       some (fallbackParticipants fp t.currentParticipants) },
            ?_, ?_, rfl, rfl, ?_, ?_⟩
    · have hv := (schemaValid_set_completion t (jsTrim w)
        (fallbackParticipants fp t.currentParticipants)).trans hvalid
      simp [completeTournament, hbe, hf, hv]
    · have hv := (schemaValid_set_completion t (jsTrim w)
        (fallbackParticipants fp t.currentParticipants)).trans hvalid
      simp [completeTournament, hbe, hf, hv]
    · intro n hn hne
      subst hn
      have hz : (n == 0) = false := by
        simpa using hne
      simp [fallbackParticipants, hz]
    · intro hfp
      rcases hfp with rfl | rfl <;> simp [fallbackParticipants]

/-- Witness for the amended C5: completing with a padded winner name
stores the trimmed name, completed status, and the current participant
count. -/
theorem c5_complete_amended_witness :
    ∃ t', (completeTournament [sampleBase] 1 "  Alice  " none).1
        = Except.ok t' ∧
      (completeTournament [sampleBase] 1 "  Alice  " none).2
        = saveById [sampleBase] t' ∧
      t'.status = Status.completed ∧
      t'.winner = some (jsTrim "  Alice  ") ∧
      (∀ n : Int, (none : Option Int) = some n → n ≠ 0 →
        t'.finalParticipants = some n) ∧
      (((none : Option Int) = none ∨ (none : Option Int) = some 0) →
        t'.finalParticipants = some sampleBase.currentParticipants) :=
  (c5_complete_amended [sampleBase] 1 "  Alice  " none sampleBase
    (by decide) (by decide)).2 (by decide)

lemma validation_current_nonneg (d : TournamentInput)
    (h : tournamentValidation d = true) :
    0 ≤ d.currentParticipants.getD 0 := by
  simp only [tournamentValidation, Bool.and_eq_true] at h
  have h' := h.2
  cases hc : d.currentParticipants with
  | none => simp
  | some n =>
    rw [hc] at h'
    simp only [Option.getD_some]
    simpa using h'

lemma applyUpdate_current_nonneg (t : Tournament) (d : TournamentInput)
    (img : Option String) (hval : tournamentValidation d = true)
    (h0 : 0 ≤ t.currentParticipants) :
    0 ≤ (applyUpdate t d img).currentParticipants := by
  simp only [applyUpdate]
  cases hc : d.currentParticipants with
  | none => simpa using h0
  | some n =>
    simp only [tournamentValidation, Bool.and_eq_true] at hval
    have h' := hval.2
    rw [hc] at h'
    simpa using h'

/-- Claim C2 counterexample: neither the create validation rules nor the
schema relate `currentParticipants` to `maxParticipants`, so a create
request with `currentParticipants = 50` and `maxParticipants = 32`
succeeds and the stored record violates
`currentParticipants ≤ maxParticipants`. -/
theorem c2_counterexample :
    (postTournament [] [] 1 overInput none true true).1
        = CreateResult.created (buildTournament 1 (sanitizeInput overInput) none) ∧
    (postTournament [] [] 1 overInput none true true).2.1
        = [buildTournament 1 (sanitizeInput overInput) none] ∧
    (buildTournament 1 (sanitizeInput overInput) none).maxParticipants
        < (buildTournament 1 (sanitizeInput overInput) none).currentParticipants := by
  decide

/-- Claim C2 amended: the participant-count patch establishes
`0 ≤ currentParticipants ≤ maxParticipants` outright; the completion
patch and the active toggle preserve it; but create (and likewise full
update) only guarantee the one-sided bound `0 ≤ currentParticipants` —
the upper bound is not validated there, as the counterexample shows. -/
theorem c2_invariant_partial :
    (∀ (store : Store) (id : Nat) (n : Int) (t' : Tournament),
        (patchParticipants store id n).1 = Except.ok t' →
        0 ≤ t'.currentParticipants ∧
          t'.currentParticipants ≤ t'.maxParticipants) ∧
    (∀ (store : Store) (id : Nat) (w : String) (fp : Option Int)
        (t t' : Tournament), findById store id = some t →
        0 ≤ t.currentParticipants →
        t.currentParticipants ≤ t.maxParticipants →
        (completeTournament store id w fp).1 = Except.ok t' →
        0 ≤ t'.currentParticipants ∧
          t'.currentParticipants ≤ t'.maxParticipants) ∧
    (∀ (store : Store) (id : Nat) (t t' : Tournament),
        findById store id = some t →
        0 ≤ t.currentParticipants →
        t.currentParticipants ≤ t.maxParticipants →
        (toggleStatus store id).1 = Except.ok t' →
        0 ≤ t'.currentParticipants ∧
          t'.currentParticipants ≤ t'.maxParticipants) ∧
    (∀ (store : Store) (blobs : List String) (newId : Nat)
        (d : TournamentInput) (image : Option String) (uOk sOk : Bool)
        (t : Tournament),
        (postTournament store blobs newId d image uOk sOk).1
            = CreateResult.created t →
        0 ≤ t.currentParticipants) ∧
    (∀ (store : Store) (blobs : List String) (id : Nat)
        (d : TournamentInput) (newImage : Option String)
        (uOk sOk dOk : Bool) (t t' : Tournament),
        findById store id = some t → 0 ≤ t.currentParticipants →
        (putTournament store blobs id d newImage uOk sOk dOk).1
            = UpdateResult.updated t' →
        0 ≤ t'.currentParticipants) := by
  refine ⟨?_, ?_, ?_, ?_, ?_⟩
  · intro store id n t' h
    by_cases hneg : n < 0
    · simp [patchParticipants, hneg] at h
    · cases hfind : findById store id with
      | none => simp [patchParticipants, hneg, hfind] at h
      | some t =>
        by_cases hmax : t.maxParticipants < n
        · simp [patchParticipants, hneg, hfind, hmax] at h
        · by_cases hv : schemaValid { t with currentParticipants := n } = true
          · simp [patchParticipants, hneg, hfind, hmax, hv] at h
            rw [← h]
            constructor <;> simp <;> omega
          · simp [patchParticipants, hneg, hfind, hmax, hv] at h
  · intro store id w fp t t' hfind h0 hle h
    by_cases hw : (jsTrim w == "") = true
    · simp [completeTournament, hw] at h
    · have hw' : (jsTrim w == "") = false := by
        simpa using hw
      by_cases hv : schemaValid
          { t with status := Status.completed,
                   winner := some (jsTrim w),
                   finalParticipants :=
                     some (fallbackParticipants fp t.currentParticipants) } = true
      · simp [completeTournament, hw', hfind, hv] at h
        rw [← h]
        exact ⟨h0, hle⟩
      · simp [completeTournament, hw', hfind, hv] at h
  · intro store id t t' hfind h0 hle h
    by_cases hv : schemaValid { t with isActive := !t.isActive } = true
    · simp [toggleStatus, hfind, hv] at h
      rw [← h]
      exact ⟨h0, hle⟩
    · simp [toggleStatus, hfind, hv] at h
  · intro store blobs newId d image uOk sOk t h
    by_cases hval : tournamentValidation (sanitizeInput d) = true
    · cases image with
      | some pid =>
        cases uOk with
        | false => simp [postTournament, hval] at h
        | true =>
          by_cases hsv : (sOk && schemaValid
              (buildTournament newId (sanitizeInput d) (some pid))) = true
          · simp [postTournament, hval, hsv] at h
            rw [← h]
            exact validation_current_nonneg _ hval
          · simp [postTournament, hval, hsv] at h
      | none =>
        by_cases hsv : (sOk && schemaValid
            (buildTournament newId (sanitizeInput d) none)) = true
        · simp [postTournament, hval, hsv] at h
          rw [← h]
          exact validation_current_nonneg _ hval
        · simp [postTournament, hval, hsv] at h
    · simp [postTournament, hval] at h
  · intro store blobs id d newImage uOk sOk dOk t t' hfind h0 h
    by_cases hval : tournamentValidation (sanitizeInput d) = true
    · cases newImage with
      | some pid =>
        cases uOk with
        | false => simp [putTournament, hval, hfind] at h
        | true =>
          by_cases hsv : (sOk && schemaValid
              (applyUpdate t (sanitizeInput d) (some pid))) = true
          · simp [putTournament, hval, hfind, hsv] at h
            cases hold : t.posterImage with
            | some oldPid =>
              rw [hold] at h
              cases dOk with
              | false => simp at h; rw [← h]; exact applyUpdate_current_nonneg _ _ _ hval h0
              | true => simp at h; rw [← h]; exact applyUpdate_current_nonneg _ _ _ hval h0
            | none =>
              rw [hold] at h
              simp at h
              rw [← h]
              exact applyUpdate_current_nonneg _ _ _ hval h0
          · simp [putTournament, hval, hfind, hsv] at h
      | none =>
        by_cases hsv : (sOk && schemaValid
            (applyUpdate t (sanitizeInput d) none)) = true
        · simp [putTournament, hval, hfind, hsv] at h
          rw [← h]
          exact applyUpdate_current_nonneg _ _ _ hval h0
        · simp [putTournament, hval, hfind, hsv] at h
    · simp [putTournament, hval] at h

/-- Witness for the amended C2: a concrete in-range patch satisfies the
invariant. -/
theorem c2_invariant_partial_witness :
    0 ≤ ({ sampleBase with currentParticipants := 20 } : Tournament).currentParticipants ∧
    ({ sampleBase with currentParticipants := 20 } : Tournament).currentParticipants
      ≤ ({ sampleBase with currentParticipants := 20 } : Tournament).maxParticipants :=
  c2_invariant_partial.1 [sampleBase] 1 20
    { sampleBase with currentParticipants := 20 } (by rfl)

/-- Claim C6: the create handler is meant to delete the uploaded blob and
surface the original persistence error when the save fails after a
successful upload.  The code cannot do either: `cloudinaryResult` is
declared with `let` inside the `try` block, so the `catch` block's read
of it raises `ReferenceError` — the blob survives in the blob store and
no error response is produced.  This theorem evaluates the handler at
exactly that failing input. -/
theorem c6_create_cleanup_bug :
    postTournament [] [] 1 sampleInput (some "poster-1") true false
      = (CreateResult.referenceErrorCrash, [], ["poster-1"]) := by
  decide

/-- Claim C7: on a failed record write after a successful new-image
upload, the update handler is meant to delete the new blob (best-effort)
and surface the original failure while leaving the old reference alone.
The old reference is indeed untouched, but the `catch` block raises
`ReferenceError` on the try-scoped `cloudinaryResult`: the new blob is
not deleted and the original failure is not surfaced.  This theorem
evaluates the handler at exactly that failing input: the store still
holds the old record (referencing `old-1`) and the blob store holds both
`old-1` and the undeleted `new-1`. -/
theorem c7_update_cleanup_bug :
    putTournament [sampleWithImage] ["old-1"] 1 sampleInput (some "new-1")
        true false true
      = (UpdateResult.referenceErrorCrash, [sampleWithImage], ["old-1", "new-1"]) := by
  decide

lemma containsCI_empty (h : String) : containsCI h "" = true := by
  simp only [containsCI, lowerStr]
  rw [List.any_eq_true]
  refine ⟨0, ?_, ?_⟩
  · simp
  · simp [List.isPrefixOf]

lemma nat_ceil_div_eq (a b : Nat) (hb : 0 < b) :
    ⌈(a : ℚ) / (b : ℚ)⌉₊ = (a + b - 1) / b := by
  have hbq : (0 : ℚ) < (b : ℚ) := by exact_mod_cast hb
  apply le_antisymm
  · apply Nat.ceil_le.mpr
    rw [div_le_iff₀ hbq]
    have key : a ≤ (a + b - 1) / b * b := by
      have h1 := Nat.div_add_mod' (a + b - 1) b
      have h2 : (a + b - 1) % b < b := Nat.mod_lt _ hb
      generalize (a + b - 1) / b * b = m at h1 ⊢
      omega
    exact_mod_cast key
  · rw [Nat.div_le_iff_le_mul_add_pred hb,
      Nat.mul_comm b ⌈(a : ℚ) / (b : ℚ)⌉₊]
    have hc := Nat.le_ceil ((a : ℚ) / (b : ℚ))
    rw [div_le_iff₀ hbq] at hc
    have hcn : a ≤ ⌈(a : ℚ) / (b : ℚ)⌉₊ * b := by exact_mod_cast hc
    generalize ⌈(a : ℚ) / (b : ℚ)⌉₊ * b = m at hcn ⊢
    omega

/-- Claim C9: the admin list filter matches the spec's predicate — the
search term is matched case-insensitively across name, location, and
category joined by OR; status `active`/`inactive` target the `isActive`
flag and any other non-`all` status targets the `status` field; a
non-`all` category must match exactly — and the pagination reports
`totalPages = ceil(totalCount / limit)` with 1-indexed pages (page 1
starts at the first sorted match). -/
theorem c9_admin_query (store : Store) (p : AdminParams) (hl : 0 < p.limit) :
    (∀ t : Tournament, adminMatch p t = true ↔
        (searchMatchesSpec p t ∧ statusMatchesSpec p t ∧
          categoryMatchesSpec p t)) ∧
    (getAdminTournaments store p).totalPages
        = ((getAdminTournaments store p).total + p.limit - 1) / p.limit ∧
    (p.page = 1 →
      (getAdminTournaments store p).data
        = (sortByDateDesc (store.filter (adminMatch p))).take p.limit) := by
  refine ⟨?_, ?_, ?_⟩
  · intro t
    by_cases hse : p.search = "" <;>
      by_cases hall : p.status = "all" <;>
        by_cases hact : p.status = "active" <;>
          by_cases hina : p.status = "inactive" <;>
            by_cases hcat : p.category = "all" <;>
              simp_all [adminMatch, searchMatchesSpec, statusMatchesSpec,
                categoryMatchesSpec, containsCI_empty, or_assoc, and_assoc]
  · simp only [getAdminTournaments]
    exact nat_ceil_div_eq _ _ hl
  · intro hp
    simp [getAdminTournaments, hp]

/-- Witness for C9 at a concrete store and request. -/
theorem c9_admin_query_witness :
    (adminMatch ⟨1, 10, "", "active", "all"⟩ sampleBase = true ↔
      (searchMatchesSpec ⟨1, 10, "", "active", "all"⟩ sampleBase ∧
        statusMatchesSpec ⟨1, 10, "", "active", "all"⟩ sampleBase ∧
        categoryMatchesSpec ⟨1, 10, "", "active", "all"⟩ sampleBase)) ∧
    (getAdminTournaments [sampleBase] ⟨1, 10, "", "active", "all"⟩).totalPages
      = ((getAdminTournaments [sampleBase] ⟨1, 10, "", "active", "all"⟩).total
          + 10 - 1) / 10 :=
  ⟨(c9_admin_query [sampleBase] ⟨1, 10, "", "active", "all"⟩ (by decide)).1
      sampleBase,
   (c9_admin_query [sampleBase] ⟨1, 10, "", "active", "all"⟩ (by decide)).2.1⟩
